import Mathlib

/-
Verification of the in-memory bounded work queue demo
(examples/communication/queues/in_memory_queue.js): a fixed-capacity FIFO
buffer with a producer endpoint, a polling consumer loop driven by timer
callbacks, an SSE fan-out to observers, and a pause/resume/set control
surface.  The JavaScript program is single-threaded and callback-driven, so
it is embedded as a state machine: the mutable module state becomes the
structure Sys, and every HTTP handler or timer callback becomes a total
function on Sys.  Pending setTimeout callbacks are modelled explicitly as a
list, and a step of the event loop fires one of them.
-/

namespace QueueDemo

/-- A JavaScript number as the demo uses it, restricted to integer values;
none stands for NaN (the result of Number applied to a non-numeric string). -/
abbrev JSNum := Option Int

/-- Math.max 1 x on a JS number: if either argument is NaN the result is NaN. -/
def jsMax1 : JSNum → JSNum
  | none => none
  | some n => some (max 1 n)

/-- Number of iterations of the loop for i = 0; i < count; i++ when count is
the given JS number: a NaN bound gives zero iterations (i < NaN is false), and
so does a non-positive bound. -/
def iterCount : JSNum → Nat
  | none => 0
  | some n => n.toNat

/-- A work item as built by the producer: id is the (pre-incremented) produced
counter, ts the Date.now timestamp at enqueue time. -/
structure WorkItem where
  id : Nat
  ts : Nat
deriving DecidableEq, Repr

/-- class Queue: a JS array of items plus the fixed maxSize set at
construction. -/
structure Queue where
  items : List WorkItem
  maxSize : Nat
deriving DecidableEq, Repr

/-- Queue.push: if items.length >= maxSize return false, else append to the
tail and return true.  Returns the flag together with the updated queue. -/
def Queue.push (q : Queue) (item : WorkItem) : Bool × Queue :=
  if q.maxSize ≤ q.items.length then (false, q)
  else (true, { q with items := q.items ++ [item] })

/-- Queue.shift: remove and return the head item; undefined (none) on an empty
queue. -/
def Queue.shift (q : Queue) : Option WorkItem × Queue :=
  match q.items with
  | [] => (none, q)
  | x :: rest => (some x, { q with items := rest })

/-- Queue.size: items.length. -/
def Queue.size (q : Queue) : Nat := q.items.length

/-- The events the demo writes to its SSE channel.  The init event is the
synthetic snapshot written directly to a newly connected observer; the others
are broadcast through sseSend. -/
inductive Event where
  | init (produced consumed queueSize : Nat)
  | queued (id : Nat) (size : Nat)
  | backpressure (size : Nat)
  | processed (id : Nat) (latency : Int) (size : Nat)
  | stopped (produced consumed size : Nat)
deriving DecidableEq, Repr

/-- An SSE subscriber: the response object res, with its delivered events in
order and a flag recording whether its connection has been torn down (in which
case res.write throws). -/
structure Observer where
  oid : Nat
  closed : Bool
  received : List Event
deriving DecidableEq, Repr

/-- res.write of one event to one observer: raises (Except.error) exactly when
the connection is closed, otherwise delivers the event. -/
def resWrite (o : Observer) (e : Event) : Except Unit Observer :=
  if o.closed then Except.error () else Except.ok { o with received := o.received ++ [e] }

/-- The body of the loop inside sseSend for one observer: try res.write(line)
catch with an empty handler — a failing write is swallowed and the observer is
kept as it was. -/
def deliver (e : Event) (o : Observer) : Observer :=
  match resWrite o e with
  | Except.ok o2 => o2
  | Except.error _ => o

/-- function sseSend: iterate the guarded write over all subscribers. -/
def sseSend (subs : List Observer) (e : Event) : List Observer :=
  subs.map (deliver e)

/-- The same broadcast loop without the catch: the first failing write
propagates out of the loop.  Used only to state that the catch in sseSend is
what keeps the broadcaster from crashing. -/
def sseSendNoCatch (subs : List Observer) (e : Event) : Except Unit (List Observer) :=
  match subs with
  | [] => Except.ok []
  | o :: rest =>
    match resWrite o e with
    | Except.error err => Except.error err
    | Except.ok o2 =>
      match sseSendNoCatch rest e with
      | Except.error err => Except.error err
      | Except.ok rest2 => Except.ok (o2 :: rest2)

/-- The part of the module state the producer endpoint touches: the queue, the
produced counter, the subscriber set written through sseSend, and the ghost
log of emitted events. -/
structure ProdSt where
  queue : Queue
  produced : Nat
  subscribers : List Observer
  log : List Event
deriving DecidableEq, Repr

/-- Emit one event from the producer: broadcast it with sseSend and record it
in the ghost log. -/
def ProdSt.emit (ps : ProdSt) (e : Event) : ProdSt :=
  { ps with subscribers := sseSend ps.subscribers e, log := ps.log ++ [e] }

/-- The loop inside addJobs, by remaining iteration count.  Each attempt first
pre-increments produced (the argument id: ++produced is evaluated before the
push, so produced advances even when the push is rejected), then pushes: on
acceptance a queued event is emitted and the loop continues, on rejection a
backpressure event is emitted and the loop breaks.  Returns (accepted,
rejected, final state). -/
def addJobsGo : Nat → Nat → ProdSt → Nat × Nat × ProdSt
  | 0, _, ps => (0, 0, ps)
  | Nat.succ k, t, ps =>
    let produced2 := ps.produced + 1
    let item : WorkItem := { id := produced2, ts := t }
    match ps.queue.push item with
    | (true, q2) =>
      let ps2 := (ProdSt.emit { ps with queue := q2, produced := produced2 }
        (Event.queued produced2 q2.size))
      let r := addJobsGo k t ps2
      (r.1 + 1, r.2.1, r.2.2)
    | (false, _) =>
      let ps2 := (ProdSt.emit { ps with produced := produced2 }
        (Event.backpressure ps.queue.size))
      (0, 1, ps2)

/-- The response body of the enqueue endpoint. -/
structure BatchResult where
  accepted : Nat
  rejected : Nat
  queueSize : Nat
  produced : Nat
deriving DecidableEq, Repr

/-- const addJobs = (count) => ..., where count is already a JS number (the
clamped query-parameter or body value). -/
def addJobs (count : JSNum) (t : Nat) (ps : ProdSt) : BatchResult × ProdSt :=
  let r := addJobsGo (iterCount count) t ps
  ({ accepted := r.1, rejected := r.2.1, queueSize := r.2.2.queue.size,
     produced := r.2.2.produced }, r.2.2)

/-- A callback pending in the event loop, scheduled with setTimeout.
consumeCall is a scheduled invocation of consume and records the delay it was
scheduled with (consumePollMs at scheduling time); completeCall is the
processing-completion callback for a dequeued job. -/
inductive Cb where
  | consumeCall (delayMs : JSNum)
  | completeCall (job : WorkItem)
deriving DecidableEq, Repr

/-- The module-level mutable state of the demo, plus the event-loop callback
list and a ghost log of every event passed to sseSend, in emission order. -/
structure Sys where
  queue : Queue
  produced : Nat
  consumed : Nat
  running : Bool
  consumePollMs : JSNum
  subscribers : List Observer
  pending : List Cb
  log : List Event
deriving DecidableEq, Repr

/-- Emit one event: broadcast it with sseSend and record it in the ghost log. -/
def Sys.emit (s : Sys) (e : Event) : Sys :=
  { s with subscribers := sseSend s.subscribers e, log := s.log ++ [e] }

/-- function consume, up to and including the scheduling it performs: when not
running it returns at once and schedules nothing; otherwise it shifts the
queue, scheduling the completion callback for a dequeued job, or — when the
queue was empty — rescheduling itself with the current consumePollMs. -/
def consume (s : Sys) : Sys :=
  if s.running then
    match s.queue.shift with
    | (some job, q2) => { s with queue := q2, pending := s.pending ++ [Cb.completeCall job] }
    | (none, _) => { s with pending := s.pending ++ [Cb.consumeCall s.consumePollMs] }
  else s

/-- Body of the processing-completion setTimeout callback, firing at time t:
consumed++, emit the processed event with the job latency, then call consume.
Note the body does not test the running flag. -/
def completeJob (job : WorkItem) (t : Nat) (s : Sys) : Sys :=
  let s1 := { s with consumed := s.consumed + 1 }
  let s2 := s1.emit (Event.processed job.id ((t : Int) - (job.ts : Int)) s1.queue.size)
  consume s2

/-- The producer-side view of the module state. -/
def Sys.prod (s : Sys) : ProdSt :=
  { queue := s.queue, produced := s.produced, subscribers := s.subscribers,
    log := s.log }

/-- Write an updated producer-side view back into the module state.  The
consumer-side fields (consumed, running, consumePollMs, pending) are the ones
the addJobs closure never touches. -/
def Sys.withProd (s : Sys) (ps : ProdSt) : Sys :=
  { s with queue := ps.queue, produced := ps.produced,
           subscribers := ps.subscribers, log := ps.log }

/-- The raw value of a query-string parameter, abstracted to the cases the
handlers distinguish: absent (searchParams.get returned null), the empty
string, a string carrying an integer, or a non-empty string that Number maps
to NaN. -/
inductive Param where
  | missing
  | empty
  | numeric (n : Int)
  | nonNumeric
deriving DecidableEq, Repr

/-- JS truthiness of the raw parameter: null and the empty string are falsy,
every other string (including the string 0) is truthy. -/
def Param.truthy : Param → Bool
  | Param.missing => false
  | Param.empty => false
  | _ => true

/-- Number applied to the raw parameter: Number null = 0, Number of the empty
string = 0, a numeric string parses, anything else is NaN. -/
def Param.toNumber : Param → JSNum
  | Param.missing => some 0
  | Param.empty => some 0
  | Param.numeric n => some n
  | Param.nonNumeric => none

/-- The JS expression p or-else 1 followed by Number: a falsy parameter is
replaced by the number 1 before conversion. -/
def Param.orOne : Param → JSNum
  | Param.missing => some 1
  | Param.empty => some 1
  | Param.numeric n => some n
  | Param.nonNumeric => none

/-- The count computed by the GET branch of the enqueue handler:
Math.max(1, Number(url.searchParams.get(count) or-else 1)). -/
def effectiveCountGET (p : Param) : JSNum := jsMax1 p.orOne

/-- GET branch of the enqueue handler: clamp the count, then run addJobs. -/
def enqueueGET (p : Param) (t : Nat) (s : Sys) : BatchResult × Sys :=
  let r := addJobs (effectiveCountGET p) t s.prod
  (r.1, s.withProd r.2)

/-- The POST body of the enqueue endpoint, abstracted to the cases the handler
distinguishes: a body JSON.parse rejects (the catch leaves count = 1), a
parsed object whose count field is absent or falsy (count or-else 1 gives 1),
an integer count, or a non-numeric count value (Number gives NaN). -/
inductive PostBody where
  | invalidJSON
  | countAbsent
  | countNumeric (n : Int)
  | countNonNumeric
deriving DecidableEq, Repr

/-- The count computed by the POST branch: count = Number(j.count or-else 1)
guarded by try/catch, then Math.max(1, count). -/
def effectiveCountPOST : PostBody → JSNum
  | PostBody.invalidJSON => jsMax1 (some 1)
  | PostBody.countAbsent => jsMax1 (some 1)
  | PostBody.countNumeric n => jsMax1 (if n = 0 then some 1 else some n)
  | PostBody.countNonNumeric => jsMax1 none

/-- POST branch of the enqueue handler. -/
def enqueuePOST (b : PostBody) (t : Nat) (s : Sys) : BatchResult × Sys :=
  let r := addJobs (effectiveCountPOST b) t s.prod
  (r.1, s.withProd r.2)

/-- control action pause: running = false. -/
def controlPause (s : Sys) : Sys := { s with running := false }

/-- control action resume: if not running, set running = true and call consume
synchronously; if already running, do nothing. -/
def controlResume (s : Sys) : Sys :=
  if s.running then s else consume { s with running := true }

/-- control action set: read consumeMs; if it is truthy store
Math.max(1, Number(consumeMs)) into consumePollMs, else leave it alone. -/
def controlSet (p : Param) (s : Sys) : Sys :=
  if p.truthy then { s with consumePollMs := jsMax1 p.toNumber } else s

/-- GET /events: write the synthetic init event carrying the current counters
and queue size directly to the new connection, then add it to subscribers. -/
def observerConnect (oid : Nat) (s : Sys) : Sys :=
  let e : Event := Event.init s.produced s.consumed s.queue.size
  { s with subscribers :=
      s.subscribers ++ [{ oid := oid, closed := false, received := [e] }] }

/-- The connection of observer oid breaks: subsequent writes to it raise.  The
observer stays in the set until its close event is handled. -/
def observerBreak (oid : Nat) (s : Sys) : Sys :=
  { s with subscribers :=
      s.subscribers.map fun o => if o.oid = oid then { o with closed := true } else o }

/-- The close event of observer oid fires: subscribers.delete(res). -/
def observerClose (oid : Nat) (s : Sys) : Sys :=
  { s with subscribers := s.subscribers.filter fun o => o.oid ≠ oid }

/-- The event loop fires pending callback number i at time t: the callback is
removed from the pending list and its body runs. -/
def fire (i : Nat) (t : Nat) (s : Sys) : Sys :=
  match s.pending[i]? with
  | none => s
  | some cb =>
    let s1 := { s with pending := s.pending.eraseIdx i }
    match cb with
    | Cb.consumeCall _ => consume s1
    | Cb.completeCall job => completeJob job t s1

/-- One externally observable step of the demo: an HTTP request being handled,
an observer connection event, or the event loop firing a timer callback. -/
inductive Step where
  | enqueueGETReq (p : Param) (t : Nat)
  | enqueuePOSTReq (b : PostBody) (t : Nat)
  | pauseReq
  | resumeReq
  | setReq (p : Param)
  | eventsReq (oid : Nat)
  | connBreak (oid : Nat)
  | connClose (oid : Nat)
  | fireCb (i : Nat) (t : Nat)
deriving DecidableEq, Repr

/-- The transition function of the demo. -/
def step (a : Step) (s : Sys) : Sys :=
  match a with
  | Step.enqueueGETReq p t => (enqueueGET p t s).2
  | Step.enqueuePOSTReq b t => (enqueuePOST b t s).2
  | Step.pauseReq => controlPause s
  | Step.resumeReq => controlResume s
  | Step.setReq p => controlSet p s
  | Step.eventsReq oid => observerConnect oid s
  | Step.connBreak oid => observerBreak oid s
  | Step.connClose oid => observerClose oid s
  | Step.fireCb i t => fire i t s

/-- Run a list of steps from a state. -/
def run (l : List Step) (s : Sys) : Sys := l.foldl (fun s a => step a s) s

/-- A fresh demo state with an empty queue of the given capacity, counters at
zero, running, and the default 50ms poll cadence, before the initial consume
call. -/
def demoSys (cap : Nat) : Sys :=
  { queue := { items := [], maxSize := cap }, produced := 0, consumed := 0,
    running := true, consumePollMs := some 50, subscribers := [], pending := [],
    log := [] }

/-- Process start of the demo: new Queue(20), module state initialised, then
the initial consume() call at the bottom of the file. -/
def initSys : Sys := consume (demoSys 20)

/-- Recogniser for queued events. -/
def isQueuedEv : Event → Bool
  | Event.queued _ _ => true
  | _ => false

/-- Recogniser for backpressure events. -/
def isBackpressureEv : Event → Bool
  | Event.backpressure _ => true
  | _ => false

/-- Recogniser for processed events. -/
def isProcessedEv : Event → Bool
  | Event.processed _ _ _ => true
  | _ => false

/-- Number of queued events in an emission log. -/
def queuedCount (l : List Event) : Nat := l.countP isQueuedEv

/-- Number of backpressure events in an emission log. -/
def backpressureCount (l : List Event) : Nat := l.countP isBackpressureEv

/-- Number of processed events in an emission log. -/
def processedCount (l : List Event) : Nat := l.countP isProcessedEv

/-- Recogniser for processing-completion callbacks. -/
def isCompleteCb : Cb → Bool
  | Cb.completeCall _ => true
  | _ => false

/-- Number of processing-completion callbacks pending in the event loop: the
number of jobs that have been dequeued but whose processing has not yet
completed (the in-flight jobs). -/
def completesPending (p : List Cb) : Nat := p.countP isCompleteCb

/-- A sequence of bare pushes against a queue, for the capacity invariant. -/
def pushAll (xs : List WorkItem) (q : Queue) : Queue :=
  xs.foldl (fun q x => (q.push x).2) q

/-- A bare queue operation, for stating the FIFO property of the buffer
independently of the surrounding demo. -/
inductive QOp where
  | pushOp (x : WorkItem)
  | shiftOp
deriving DecidableEq, Repr

/-- A queue together with the history of its accepted pushes (in acceptance
order) and of its successful shifts (in removal order). -/
structure QTrace where
  q : Queue
  enq : List WorkItem
  deq : List WorkItem
deriving DecidableEq, Repr

/-- Apply one queue operation, recording accepted pushes and successful
shifts. -/
def qstep (tr : QTrace) : QOp → QTrace
  | QOp.pushOp x =>
    match tr.q.push x with
    | (true, q2) => { tr with q := q2, enq := tr.enq ++ [x] }
    | (false, _) => tr
  | QOp.shiftOp =>
    match tr.q.shift with
    | (some x, q2) => { tr with q := q2, deq := tr.deq ++ [x] }
    | (none, _) => tr

/-- The empty queue of the given capacity with empty histories. -/
def qinit (cap : Nat) : QTrace :=
  { q := { items := [], maxSize := cap }, enq := [], deq := [] }

/-- Run a sequence of queue operations from the empty queue of the given
capacity. -/
def qrun (ops : List QOp) (cap : Nat) : QTrace := ops.foldl qstep (qinit cap)

/-- Emit a sequence of events one after the other. -/
def emitAll (s : Sys) (es : List Event) : Sys := es.foldl Sys.emit s

/-- The conservation invariant the demo actually maintains: produced counts
every enqueue attempt, so it equals completed processings plus buffered items
plus in-flight items plus rejected attempts (one backpressure event each);
consumed counts exactly the processed events; produced counts exactly the
queued events plus the backpressure events. -/
def SysInv (s : Sys) : Prop :=
  s.produced = s.consumed + s.queue.size + completesPending s.pending +
    backpressureCount s.log ∧
  s.consumed = processedCount s.log ∧
  s.produced = queuedCount s.log + backpressureCount s.log

/-! Characterisation lemmas for the queue primitives. -/

/-- Queue.push either rejects a full queue unchanged or appends to the tail. -/
theorem push_spec (q : Queue) (x : WorkItem) :
    (q.maxSize ≤ q.items.length ∧ q.push x = (false, q)) ∨
    (q.items.length < q.maxSize ∧
      q.push x = (true, { q with items := q.items ++ [x] })) := by
  unfold Queue.push
  by_cases h : q.maxSize ≤ q.items.length
  · left; simp [h]
  · right; simp [h]; omega

/-- Queue.shift either reports an empty queue unchanged or removes the head. -/
theorem shift_spec (q : Queue) :
    (q.items = [] ∧ q.shift = (none, q)) ∨
    (∃ x rest, q.items = x :: rest ∧ q.shift = (some x, { q with items := rest })) := by
  cases hq : q.items with
  | nil => left; exact ⟨rfl, by simp [Queue.shift, hq]⟩
  | cons x rest => right; exact ⟨x, rest, rfl, by simp [Queue.shift, hq]⟩

/-- One push keeps the occupancy bound and the capacity field. -/
theorem push_preserves_bound (q : Queue) (x : WorkItem) :
    (q.push x).2.maxSize = q.maxSize ∧
    (q.items.length ≤ q.maxSize → (q.push x).2.items.length ≤ q.maxSize) := by
  rcases push_spec q x with ⟨h, hp⟩ | ⟨h, hp⟩
  · simp [hp]
  · simp [hp]; omega

/-- Any sequence of pushes keeps the occupancy bound and the capacity field. -/
theorem pushAll_bound (xs : List WorkItem) :
    ∀ q : Queue, q.items.length ≤ q.maxSize →
      (pushAll xs q).items.length ≤ (pushAll xs q).maxSize ∧
      (pushAll xs q).maxSize = q.maxSize := by
  induction xs with
  | nil => intro q h; exact ⟨h, rfl⟩
  | cons x tl ih =>
    intro q h
    have hp := push_preserves_bound q x
    have := ih (q.push x).2 (hp.1 ▸ hp.2 h)
    simpa [pushAll, List.foldl, hp.1] using this

/-- C1: for every sequence of push calls on a queue constructed with a fixed
positive capacity, the size never exceeds the capacity; a push against a queue
whose size equals its capacity returns false and leaves the queue unchanged,
and a push against a queue whose size is strictly below its capacity returns
true and appends the item at the tail. -/
theorem c1_capacity_invariant (cap : Nat) (_hcap : 0 < cap) :
    (∀ xs : List WorkItem, (pushAll xs { items := [], maxSize := cap }).size ≤ cap) ∧
    (∀ (q : Queue) (x : WorkItem), q.size = q.maxSize → q.push x = (false, q)) ∧
    (∀ (q : Queue) (x : WorkItem), q.size < q.maxSize →
      q.push x = (true, { q with items := q.items ++ [x] })) := by
  refine ⟨fun xs => ?_, fun q x h => ?_, fun q x h => ?_⟩
  · have := pushAll_bound xs { items := [], maxSize := cap } (by simp)
    simpa [Queue.size, this.2] using this.1
  · rcases push_spec q x with ⟨_, hp⟩ | ⟨hlt, _⟩
    · exact hp
    · exact absurd h (by simp [Queue.size]; omega)
  · rcases push_spec q x with ⟨hle, _⟩ | ⟨_, hp⟩
    · exact absurd h (by simp [Queue.size]; omega)
    · exact hp

/-- Witness for C1 at capacity 2: three pushes from empty stay within bound,
a push at full capacity is rejected without mutation, and a push below
capacity appends. -/
theorem c1_capacity_invariant_witness :
    0 < 2 ∧
    (pushAll [⟨1, 0⟩, ⟨2, 0⟩, ⟨3, 0⟩] { items := [], maxSize := 2 }).size ≤ 2 ∧
    Queue.push { items := [⟨1, 0⟩, ⟨2, 0⟩], maxSize := 2 } ⟨3, 0⟩ =
      (false, { items := [⟨1, 0⟩, ⟨2, 0⟩], maxSize := 2 }) ∧
    Queue.push { items := [⟨1, 0⟩], maxSize := 2 } ⟨2, 0⟩ =
      (true, { items := [⟨1, 0⟩, ⟨2, 0⟩], maxSize := 2 }) :=
  ⟨by decide,
   (c1_capacity_invariant 2 (by decide)).1 [⟨1, 0⟩, ⟨2, 0⟩, ⟨3, 0⟩],
   (c1_capacity_invariant 2 (by decide)).2.1 _ _ (by decide),
   (c1_capacity_invariant 2 (by decide)).2.2 { items := [⟨1, 0⟩], maxSize := 2 } ⟨2, 0⟩
     (by decide)⟩

/-- C4 counterexample: with capacity 5 and a single request for 7 items, the
reported rejected count is 1 (only the sixth attempt is made and rejected
before the batch stops), not 2 as claimed. -/
theorem c4_counterexample :
    (enqueueGET (Param.numeric 7) 0 (demoSys 5)).1.rejected = 1 ∧
    ¬ (enqueueGET (Param.numeric 7) 0 (demoSys 5)).1.rejected = 2 := by decide

/-- C4 (amended): starting from an empty queue with capacity 5, a single
enqueue request for 7 items yields accepted = 5 and rejected = 1 (the rejected
counter counts the single attempted-and-rejected item; the seventh item is
never attempted), exactly one backpressure event is emitted, on the sixth
attempt, the queue size is 5 afterwards, and after the first rejection no
further items of the batch are attempted: the emission log is exactly five
queued events followed by one backpressure event. -/
theorem c4_batch_scenario (t : Nat) :
    (enqueueGET (Param.numeric 7) t (demoSys 5)).1.accepted = 5 ∧
    (enqueueGET (Param.numeric 7) t (demoSys 5)).1.rejected = 1 ∧
    (enqueueGET (Param.numeric 7) t (demoSys 5)).1.queueSize = 5 ∧
    (enqueueGET (Param.numeric 7) t (demoSys 5)).2.queue.size = 5 ∧
    (enqueueGET (Param.numeric 7) t (demoSys 5)).2.log =
      [Event.queued 1 1, Event.queued 2 2, Event.queued 3 3, Event.queued 4 4,
       Event.queued 5 5, Event.backpressure 5] ∧
    backpressureCount (enqueueGET (Param.numeric 7) t (demoSys 5)).2.log = 1 :=
  ⟨rfl, rfl, rfl, rfl, rfl, rfl⟩

/-- C7: a non-numeric count parameter is not clamped to 1; Number gives NaN,
Math.max(1, NaN) is NaN, and the batch loop performs zero iterations, so the
request is answered without error but with zero enqueue attempts, leaving the
state untouched, against the claimed minimum of one attempt.  The POST body
path computes the same NaN count. -/
theorem c7_nonNumeric_count_zero_attempts :
    effectiveCountGET Param.nonNumeric = none ∧
    iterCount (effectiveCountGET Param.nonNumeric) = 0 ∧
    (enqueueGET Param.nonNumeric 0 (demoSys 5)).1.accepted = 0 ∧
    (enqueueGET Param.nonNumeric 0 (demoSys 5)).1.rejected = 0 ∧
    (enqueueGET Param.nonNumeric 0 (demoSys 5)).2 = demoSys 5 ∧
    effectiveCountPOST PostBody.countNonNumeric = none := by decide

/-! Counting lemmas used by the conservation and pause invariants. -/

/-- Appending one element adds its count. -/
theorem countP_concat {α : Type _} (p : α → Bool) (l : List α) (a : α) :
    (l ++ [a]).countP p = l.countP p + (if p a then 1 else 0) := by
  cases hpa : p a <;> simp [List.countP_append, List.countP_cons, hpa]

/-- Erasing the element at a valid index removes exactly its count. -/
theorem countP_eraseIdx {α : Type _} (p : α → Bool) (l : List α) :
    ∀ (i : Nat) (x : α), l[i]? = some x →
      l.countP p = (l.eraseIdx i).countP p + (if p x then 1 else 0) := by
  induction l with
  | nil => intro i x h; simp at h
  | cons a tl ih =>
    intro i x h
    cases i with
    | zero =>
      simp only [List.getElem?_cons_zero, Option.some.injEq] at h
      subst h
      cases hpa : p a <;> simp [List.eraseIdx, List.countP_cons, hpa]
    | succ n =>
      have h2 : tl[n]? = some x := by simpa using h
      have hrec := ih n x h2
      have he : (a :: tl).eraseIdx (n + 1) = a :: tl.eraseIdx n := rfl
      rw [he, List.countP_cons, List.countP_cons]
      cases hpa : p a <;> cases hpx : p x <;>
        rw [hpx] at hrec <;> simp [hpa] at hrec ⊢ <;> omega

/-! Lemmas about consume and the completion callback. -/

/-- consume never changes the running flag. -/
theorem consume_running (s : Sys) : (consume s).running = s.running := by
  unfold consume
  rcases shift_spec s.queue with ⟨_, hs⟩ | ⟨x, rest, _, hs⟩ <;>
    by_cases hr : s.running <;> simp [hr, hs]

/-- consume preserves the conservation invariant: dequeuing a job moves one
unit from the buffer to the in-flight count, and idle rescheduling changes
nothing counted. -/
theorem consume_SysInv (s : Sys) (h : SysInv s) : SysInv (consume s) := by
  obtain ⟨h1, h2, h3⟩ := h
  by_cases hr : s.running
  · rcases shift_spec s.queue with ⟨hq, hs⟩ | ⟨x, rest, hq, hs⟩
    · have hc : consume s =
          { s with pending := s.pending ++ [Cb.consumeCall s.consumePollMs] } := by
        unfold consume; rw [hs]; simp [hr]
      rw [hc]
      refine ⟨?_, h2, h3⟩
      simpa [completesPending, countP_concat, isCompleteCb] using h1
    · have hc : consume s =
          { s with queue := { items := rest, maxSize := s.queue.maxSize },
                   pending := s.pending ++ [Cb.completeCall x] } := by
        unfold consume; rw [hs]; simp [hr]
      have hsize : s.queue.size = rest.length + 1 := by simp [Queue.size, hq]
      rw [hc]
      refine ⟨?_, h2, h3⟩
      rw [hsize] at h1
      simp only [completesPending] at h1 ⊢
      simp [countP_concat, isCompleteCb, Queue.size]
      omega
  · have hc : consume s = s := by unfold consume; simp [hr]
    rw [hc]
    exact ⟨h1, h2, h3⟩

/-- Appending an event changes processedCount by its recogniser value. -/
theorem processedCount_concat (l : List Event) (e : Event) :
    processedCount (l ++ [e]) = processedCount l + (if isProcessedEv e then 1 else 0) :=
  countP_concat isProcessedEv l e

/-- Appending an event changes queuedCount by its recogniser value. -/
theorem queuedCount_concat (l : List Event) (e : Event) :
    queuedCount (l ++ [e]) = queuedCount l + (if isQueuedEv e then 1 else 0) :=
  countP_concat isQueuedEv l e

/-- Appending an event changes backpressureCount by its recogniser value. -/
theorem backpressureCount_concat (l : List Event) (e : Event) :
    backpressureCount (l ++ [e]) = backpressureCount l + (if isBackpressureEv e then 1 else 0) :=
  countP_concat isBackpressureEv l e

/-- The producer loop emits no processed events. -/
theorem addJobsGo_processedCount (k : Nat) : ∀ (t : Nat) (ps : ProdSt),
    processedCount (addJobsGo k t ps).2.2.log = processedCount ps.log := by
  induction k with
  | zero => intro t ps; rfl
  | succ n ih =>
    intro t ps
    rcases push_spec ps.queue ⟨ps.produced + 1, t⟩ with ⟨hle, hp⟩ | ⟨hlt, hp⟩
    · simp [addJobsGo, hp, ProdSt.emit, processedCount_concat, isProcessedEv]
    · simp [addJobsGo, hp, ih, ProdSt.emit, processedCount_concat, isProcessedEv]

/-- The producer loop keeps produced equal to the queued events plus the
backpressure events: produced advances once per attempt, and every attempt
emits exactly one of the two. -/
theorem addJobsGo_queued_bp (k : Nat) : ∀ (t : Nat) (ps : ProdSt),
    ps.produced = queuedCount ps.log + backpressureCount ps.log →
    (addJobsGo k t ps).2.2.produced =
      queuedCount (addJobsGo k t ps).2.2.log +
      backpressureCount (addJobsGo k t ps).2.2.log := by
  induction k with
  | zero => intro t ps h; exact h
  | succ n ih =>
    intro t ps h
    rcases push_spec ps.queue ⟨ps.produced + 1, t⟩ with ⟨hle, hp⟩ | ⟨hlt, hp⟩
    · simp only [addJobsGo, hp]
      simp [ProdSt.emit, queuedCount_concat, backpressureCount_concat,
        isQueuedEv, isBackpressureEv]
      omega
    · simp only [addJobsGo, hp]
      apply ih
      simp [ProdSt.emit, queuedCount_concat, backpressureCount_concat,
        isQueuedEv, isBackpressureEv]
      omega

/-- The producer loop conserves: produced stays equal to a fixed completed
count plus the buffer occupancy plus a fixed in-flight count plus the
backpressure events, since every attempt either grows the buffer or emits one
backpressure event. -/
theorem addJobsGo_conserve (k : Nat) : ∀ (t : Nat) (ps : ProdSt) (c m : Nat),
    ps.produced = c + ps.queue.size + m + backpressureCount ps.log →
    (addJobsGo k t ps).2.2.produced =
      c + (addJobsGo k t ps).2.2.queue.size + m +
      backpressureCount (addJobsGo k t ps).2.2.log := by
  induction k with
  | zero => intro t ps c m h; exact h
  | succ n ih =>
    intro t ps c m h
    simp only [Queue.size] at h
    rcases push_spec ps.queue ⟨ps.produced + 1, t⟩ with ⟨hle, hp⟩ | ⟨hlt, hp⟩
    · simp only [addJobsGo, hp]
      simp [ProdSt.emit, Queue.size, backpressureCount_concat, isBackpressureEv]
      omega
    · simp only [addJobsGo, hp]
      apply ih
      simp [ProdSt.emit, Queue.size, backpressureCount_concat, isBackpressureEv]
      omega

/-- A producer request (either branch of the enqueue endpoint) preserves the
conservation invariant. -/
theorem addJobs_SysInv (c : JSNum) (t : Nat) (s : Sys) (h : SysInv s) :
    SysInv (s.withProd (addJobs c t s.prod).2) := by
  obtain ⟨h1, h2, h3⟩ := h
  refine ⟨?_, ?_, ?_⟩
  · show (addJobsGo (iterCount c) t s.prod).2.2.produced =
      s.consumed + (addJobsGo (iterCount c) t s.prod).2.2.queue.size +
      completesPending s.pending +
      backpressureCount (addJobsGo (iterCount c) t s.prod).2.2.log
    exact addJobsGo_conserve _ t s.prod s.consumed (completesPending s.pending) h1
  · show s.consumed = processedCount (addJobsGo (iterCount c) t s.prod).2.2.log
    exact h2.trans (addJobsGo_processedCount _ t s.prod).symm
  · show (addJobsGo (iterCount c) t s.prod).2.2.produced =
      queuedCount (addJobsGo (iterCount c) t s.prod).2.2.log +
      backpressureCount (addJobsGo (iterCount c) t s.prod).2.2.log
    exact addJobsGo_queued_bp _ t s.prod h3

/-- Firing one event-loop callback preserves the conservation invariant. -/
theorem fire_SysInv (i t : Nat) (s : Sys) (h : SysInv s) : SysInv (fire i t s) := by
  obtain ⟨h1, h2, h3⟩ := h
  unfold fire
  cases hcb : s.pending[i]? with
  | none => exact ⟨h1, h2, h3⟩
  | some cb =>
    cases cb with
    | consumeCall d =>
      have hcnt := countP_eraseIdx isCompleteCb s.pending i _ hcb
      simp [isCompleteCb] at hcnt
      apply consume_SysInv
      refine ⟨?_, h2, h3⟩
      simp only [completesPending] at h1 ⊢
      omega
    | completeCall job =>
      have hcnt := countP_eraseIdx isCompleteCb s.pending i _ hcb
      simp [isCompleteCb] at hcnt
      unfold completeJob
      apply consume_SysInv
      refine ⟨?_, ?_, ?_⟩
      · show s.produced = (s.consumed + 1) + s.queue.size +
          completesPending (s.pending.eraseIdx i) +
          backpressureCount (s.log ++ [Event.processed job.id ((t : Int) - (job.ts : Int)) s.queue.size])
        simp only [completesPending] at h1 ⊢
        simp [backpressureCount_concat, isBackpressureEv]
        omega
      · show s.consumed + 1 = processedCount
          (s.log ++ [Event.processed job.id ((t : Int) - (job.ts : Int)) s.queue.size])
        simp [processedCount_concat, isProcessedEv]
        omega
      · show s.produced = queuedCount
            (s.log ++ [Event.processed job.id ((t : Int) - (job.ts : Int)) s.queue.size]) +
          backpressureCount
            (s.log ++ [Event.processed job.id ((t : Int) - (job.ts : Int)) s.queue.size])
        simp [queuedCount_concat, backpressureCount_concat, isQueuedEv, isBackpressureEv]
        omega

/-- Every transition of the demo preserves the conservation invariant. -/
theorem step_SysInv (a : Step) (s : Sys) (h : SysInv s) : SysInv (step a s) := by
  cases a with
  | enqueueGETReq p t => exact addJobs_SysInv _ t s h
  | enqueuePOSTReq b t => exact addJobs_SysInv _ t s h
  | pauseReq => exact h
  | resumeReq =>
    obtain ⟨h1, h2, h3⟩ := h
    by_cases hr : s.running
    · simpa [step, controlResume, hr] using (⟨h1, h2, h3⟩ : SysInv s)
    · have hinv : SysInv { s with running := true } := ⟨h1, h2, h3⟩
      simpa [step, controlResume, hr] using consume_SysInv _ hinv
  | setReq p =>
    show SysInv (controlSet p s)
    unfold controlSet
    split
    · exact h
    · exact h
  | eventsReq oid => exact h
  | connBreak oid => exact h
  | connClose oid => exact h
  | fireCb i t => exact fire_SysInv i t s h

/-- Every execution of the demo preserves the conservation invariant. -/
theorem run_SysInv (l : List Step) : ∀ s : Sys, SysInv s → SysInv (run l s) := by
  induction l with
  | nil => intro s h; exact h
  | cons a tl ih => intro s h; exact ih _ (step_SysInv a s h)

/-- C2 counterexample: a reachable state with the consumer running and no item
lost in which produced minus consumed differs from the queue size.  A single
request for 22 items against the capacity-20 queue accepts 20 and makes one
rejected attempt — which still pre-increments produced — and one fired
consume callback then takes a job in flight: produced = 21, consumed = 0, but
the queue holds 19 items. -/
theorem c2_counterexample :
    (run [Step.enqueueGETReq (Param.numeric 22) 0, Step.fireCb 0 0] initSys).running = true ∧
    (run [Step.enqueueGETReq (Param.numeric 22) 0, Step.fireCb 0 0] initSys).produced = 21 ∧
    (run [Step.enqueueGETReq (Param.numeric 22) 0, Step.fireCb 0 0] initSys).consumed = 0 ∧
    (run [Step.enqueueGETReq (Param.numeric 22) 0, Step.fireCb 0 0] initSys).queue.size = 19 ∧
    (run [Step.enqueueGETReq (Param.numeric 22) 0, Step.fireCb 0 0] initSys).produced -
        (run [Step.enqueueGETReq (Param.numeric 22) 0, Step.fireCb 0 0] initSys).consumed ≠
      (run [Step.enqueueGETReq (Param.numeric 22) 0, Step.fireCb 0 0] initSys).queue.size := by
  decide

/-- C2 (amended): in every reachable state, produced equals consumed plus the
queue size plus the number of in-flight items (dequeued jobs whose completion
callback is still pending) plus the number of rejected enqueue attempts (one
backpressure event each): produced is incremented once per enqueue attempt —
including the single rejected attempt that halts a batch — not only on
accepted enqueues; and consumed is incremented exactly once per completed
processing, matching the processed events one for one, while produced matches
the queued plus backpressure events one for one. -/
theorem c2_conservation (l : List Step) :
    (run l initSys).produced =
      (run l initSys).consumed + (run l initSys).queue.size +
      completesPending (run l initSys).pending +
      backpressureCount (run l initSys).log ∧
    (run l initSys).consumed = processedCount (run l initSys).log ∧
    (run l initSys).produced =
      queuedCount (run l initSys).log + backpressureCount (run l initSys).log :=
  run_SysInv l initSys ⟨rfl, rfl, rfl⟩

/-! FIFO property of the buffer. -/

/-- One queue operation preserves the history equation: the accepted items are
exactly the dequeued items followed by the current buffer contents. -/
theorem qstep_inv (tr : QTrace) (op : QOp) (h : tr.deq ++ tr.q.items = tr.enq) :
    (qstep tr op).deq ++ (qstep tr op).q.items = (qstep tr op).enq := by
  cases op with
  | pushOp x =>
    rcases push_spec tr.q x with ⟨hle, hp⟩ | ⟨hlt, hp⟩
    · simpa [qstep, hp] using h
    · simp [qstep, hp]
      rw [← List.append_assoc, h]
  | shiftOp =>
    rcases shift_spec tr.q with ⟨hq, hs⟩ | ⟨x, rest, hq, hs⟩
    · simpa [qstep, hs] using h
    · simp [qstep, hs]
      rw [hq] at h
      simpa using h

/-- Every run of queue operations satisfies the history equation. -/
theorem qrun_inv (ops : List QOp) : ∀ tr : QTrace,
    tr.deq ++ tr.q.items = tr.enq →
    (ops.foldl qstep tr).deq ++ (ops.foldl qstep tr).q.items = (ops.foldl qstep tr).enq := by
  induction ops with
  | nil => intro tr h; exact h
  | cons op tl ih => intro tr h; exact ih _ (qstep_inv tr op h)

/-- C3: FIFO of the queue.  After any sequence of pushes and shifts from an
empty queue, the sequence of dequeued items agrees position by position with
the sequence of accepted items: the item accepted in position i leaves in
position i, so if A was accepted before B (i before j) and B has been
dequeued, then A was dequeued earlier.  Moreover shift always removes and
returns the head item of a non-empty queue. -/
theorem c3_fifo (ops : List QOp) (cap : Nat) (i j : Nat) (hij : i < j)
    (hj : j < (qrun ops cap).deq.length) :
    (i < (qrun ops cap).deq.length ∧
     (qrun ops cap).deq[i]? = (qrun ops cap).enq[i]? ∧
     (qrun ops cap).deq[j]? = (qrun ops cap).enq[j]?) ∧
    (∀ (q : Queue) (x : WorkItem) (rest : List WorkItem), q.items = x :: rest →
      q.shift = (some x, { q with items := rest })) := by
  have hinv : (qrun ops cap).deq ++ (qrun ops cap).q.items = (qrun ops cap).enq :=
    qrun_inv ops (qinit cap) (by simp [qinit])
  constructor
  · have hi : i < (qrun ops cap).deq.length := lt_trans hij hj
    refine ⟨hi, ?_, ?_⟩
    · rw [← hinv]
      exact (List.getElem?_append_left hi).symm
    · rw [← hinv]
      exact (List.getElem?_append_left hj).symm
  · intro q x rest hq
    cases q
    simp_all [Queue.shift]

/-- consume does nothing when the running flag is down. -/
theorem consume_not_running (s : Sys) (hr : s.running = false) : consume s = s := by
  unfold consume; simp [hr]

/-- With the consumer paused and no completion callback pending, any step
other than resume keeps it paused with no completion callback pending, and
changes neither consumed nor the processed events. -/
theorem step_paused_frame (a : Step) (s : Sys) (hr : s.running = false)
    (hc : completesPending s.pending = 0) (hna : a ≠ Step.resumeReq) :
    (step a s).running = false ∧ completesPending (step a s).pending = 0 ∧
    (step a s).consumed = s.consumed ∧
    processedCount (step a s).log = processedCount s.log := by
  cases a with
  | enqueueGETReq p t => exact ⟨hr, hc, rfl, addJobsGo_processedCount _ t s.prod⟩
  | enqueuePOSTReq b t => exact ⟨hr, hc, rfl, addJobsGo_processedCount _ t s.prod⟩
  | pauseReq => exact ⟨rfl, hc, rfl, rfl⟩
  | resumeReq => exact absurd rfl hna
  | setReq p =>
    show (controlSet p s).running = false ∧ completesPending (controlSet p s).pending = 0 ∧
      (controlSet p s).consumed = s.consumed ∧
      processedCount (controlSet p s).log = processedCount s.log
    unfold controlSet
    split
    · exact ⟨hr, hc, rfl, rfl⟩
    · exact ⟨hr, hc, rfl, rfl⟩
  | eventsReq oid => exact ⟨hr, hc, rfl, rfl⟩
  | connBreak oid => exact ⟨hr, hc, rfl, rfl⟩
  | connClose oid => exact ⟨hr, hc, rfl, rfl⟩
  | fireCb i t =>
    show (fire i t s).running = false ∧ completesPending (fire i t s).pending = 0 ∧
      (fire i t s).consumed = s.consumed ∧
      processedCount (fire i t s).log = processedCount s.log
    unfold fire
    cases hcb : s.pending[i]? with
    | none => exact ⟨hr, hc, rfl, rfl⟩
    | some cb =>
      have hcnt := countP_eraseIdx isCompleteCb s.pending i _ hcb
      cases cb with
      | consumeCall d =>
        simp [isCompleteCb] at hcnt
        have hs1 := consume_not_running { s with pending := s.pending.eraseIdx i } hr
        dsimp only
        rw [hs1]
        refine ⟨hr, ?_, rfl, rfl⟩
        simp only [completesPending] at hc ⊢
        omega
      | completeCall job =>
        exfalso
        simp [isCompleteCb] at hcnt
        simp only [completesPending] at hc
        omega

/-- From a paused state with no completion callback pending, any execution
that never invokes resume keeps the system paused and changes neither
consumed nor the processed events. -/
theorem run_paused_frame (l : List Step) : ∀ s : Sys,
    s.running = false → completesPending s.pending = 0 →
    (∀ a ∈ l, a ≠ Step.resumeReq) →
    (run l s).running = false ∧ completesPending (run l s).pending = 0 ∧
    (run l s).consumed = s.consumed ∧
    processedCount (run l s).log = processedCount s.log := by
  induction l with
  | nil => intro s hr hc _; exact ⟨hr, hc, rfl, rfl⟩
  | cons a tl ih =>
    intro s hr hc hl
    have ha : a ≠ Step.resumeReq := hl a (by simp)
    obtain ⟨f1, f2, f3, f4⟩ := step_paused_frame a s hr hc ha
    have htl : ∀ b ∈ tl, b ≠ Step.resumeReq := fun b hb => hl b (by simp [hb])
    obtain ⟨g1, g2, g3, g4⟩ := ih (step a s) f1 f2 htl
    exact ⟨g1, g2, g3.trans f3, g4.trans f4⟩

/-- C5 counterexample: pause does not silence an item already in flight.  One
item is enqueued and dequeued by a fired consume callback, then pause is
requested; when the pending completion callback fires — with no resume in
between — a processed event is emitted and consumed increases although
running is still false. -/
theorem c5_counterexample :
    (run [Step.enqueueGETReq (Param.numeric 1) 0, Step.fireCb 0 0, Step.pauseReq]
        initSys).running = false ∧
    processedCount (run [Step.enqueueGETReq (Param.numeric 1) 0, Step.fireCb 0 0,
        Step.pauseReq] initSys).log = 0 ∧
    (run [Step.enqueueGETReq (Param.numeric 1) 0, Step.fireCb 0 0, Step.pauseReq]
        initSys).consumed = 0 ∧
    (run [Step.enqueueGETReq (Param.numeric 1) 0, Step.fireCb 0 0, Step.pauseReq,
        Step.fireCb 0 100] initSys).running = false ∧
    processedCount (run [Step.enqueueGETReq (Param.numeric 1) 0, Step.fireCb 0 0,
        Step.pauseReq, Step.fireCb 0 100] initSys).log = 1 ∧
    (run [Step.enqueueGETReq (Param.numeric 1) 0, Step.fireCb 0 0, Step.pauseReq,
        Step.fireCb 0 100] initSys).consumed = 1 := by decide

/-- C5 (amended): after pause, provided no item is in flight at pause time (no
completion callback pending), no processed event is emitted and consumed does
not increase until resume is invoked, whatever the queue occupancy; the one
item already in flight at pause time is the sole exception — its completion
still emits one processed event and increments consumed (the completion
callback does not test the running flag). -/
theorem c5_pause_no_processed (s : Sys) (l : List Step)
    (hr : s.running = false) (hc : completesPending s.pending = 0)
    (hl : ∀ a ∈ l, a ≠ Step.resumeReq) :
    processedCount (run l s).log = processedCount s.log ∧
    (run l s).consumed = s.consumed ∧
    (run l s).running = false :=
  ⟨(run_paused_frame l s hr hc hl).2.2.2, (run_paused_frame l s hr hc hl).2.2.1,
   (run_paused_frame l s hr hc hl).1⟩

/-- Witness for C5: pausing the freshly started demo — which has no item in
flight — and then firing the poll callback, enqueuing two items and pausing
again emits no processed event and leaves consumed untouched. -/
theorem c5_pause_no_processed_witness :
    ((controlPause initSys).running = false ∧
     completesPending (controlPause initSys).pending = 0 ∧
     (∀ a ∈ [Step.fireCb 0 0, Step.enqueueGETReq (Param.numeric 2) 0, Step.pauseReq],
        a ≠ Step.resumeReq)) ∧
    (processedCount (run [Step.fireCb 0 0, Step.enqueueGETReq (Param.numeric 2) 0,
        Step.pauseReq] (controlPause initSys)).log =
      processedCount (controlPause initSys).log ∧
     (run [Step.fireCb 0 0, Step.enqueueGETReq (Param.numeric 2) 0, Step.pauseReq]
        (controlPause initSys)).consumed = (controlPause initSys).consumed ∧
     (run [Step.fireCb 0 0, Step.enqueueGETReq (Param.numeric 2) 0, Step.pauseReq]
        (controlPause initSys)).running = false) :=
  ⟨⟨by decide, by decide, by decide⟩,
   c5_pause_no_processed (controlPause initSys)
     [Step.fireCb 0 0, Step.enqueueGETReq (Param.numeric 2) 0, Step.pauseReq]
     (by decide) (by decide) (by decide)⟩

/-- Witness for C3: two pushes then two shifts at capacity 2; positions 0 and
1 of the dequeue history match positions 0 and 1 of the acceptance history,
and shift removes the head of a concrete non-empty queue. -/
theorem c3_fifo_witness :
    (0 < 1 ∧
     1 < (qrun [QOp.pushOp ⟨1, 0⟩, QOp.pushOp ⟨2, 0⟩, QOp.shiftOp, QOp.shiftOp] 2).deq.length) ∧
    ((0 : Nat) < (qrun [QOp.pushOp ⟨1, 0⟩, QOp.pushOp ⟨2, 0⟩, QOp.shiftOp, QOp.shiftOp] 2).deq.length ∧
     (qrun [QOp.pushOp ⟨1, 0⟩, QOp.pushOp ⟨2, 0⟩, QOp.shiftOp, QOp.shiftOp] 2).deq[(0 : Nat)]? =
       (qrun [QOp.pushOp ⟨1, 0⟩, QOp.pushOp ⟨2, 0⟩, QOp.shiftOp, QOp.shiftOp] 2).enq[(0 : Nat)]? ∧
     (qrun [QOp.pushOp ⟨1, 0⟩, QOp.pushOp ⟨2, 0⟩, QOp.shiftOp, QOp.shiftOp] 2).deq[(1 : Nat)]? =
       (qrun [QOp.pushOp ⟨1, 0⟩, QOp.pushOp ⟨2, 0⟩, QOp.shiftOp, QOp.shiftOp] 2).enq[(1 : Nat)]?) ∧
    Queue.shift { items := [⟨5, 0⟩, ⟨6, 0⟩], maxSize := 3 } =
      (some ⟨5, 0⟩, { items := [⟨6, 0⟩], maxSize := 3 }) :=
  ⟨⟨by decide, by decide⟩,
   (c3_fifo [QOp.pushOp ⟨1, 0⟩, QOp.pushOp ⟨2, 0⟩, QOp.shiftOp, QOp.shiftOp] 2 0 1
      (by decide) (by decide)).1,
   (c3_fifo [QOp.pushOp ⟨1, 0⟩, QOp.pushOp ⟨2, 0⟩, QOp.shiftOp, QOp.shiftOp] 2 0 1
      (by decide) (by decide)).2 { items := [⟨5, 0⟩, ⟨6, 0⟩], maxSize := 3 } ⟨5, 0⟩ [⟨6, 0⟩]
      (by decide)⟩

/-! The fan-out boundary: stale observers. -/

/-- A write to a closed observer is swallowed and the observer kept as is. -/
theorem deliver_closed (o : Observer) (e : Event) (h : o.closed = true) :
    deliver e o = o := by
  simp [deliver, resWrite, h]

/-- A write to an open observer appends the event to its stream. -/
theorem deliver_open (o : Observer) (e : Event) (h : o.closed = false) :
    deliver e o = { o with received := o.received ++ [e] } := by
  simp [deliver, resWrite, h]

/-- The guarded write never changes an observer identity. -/
theorem deliver_oid (o : Observer) (e : Event) : (deliver e o).oid = o.oid := by
  cases h : o.closed
  · simp [deliver_open o e h]
  · simp [deliver_closed o e h]

/-- A broadcast leaves the observer set unchanged as a set of identities. -/
theorem sseSend_oids (subs : List Observer) (e : Event) :
    (sseSend subs e).map Observer.oid = subs.map Observer.oid := by
  induction subs with
  | nil => rfl
  | cons o rest ih => simp [sseSend, deliver_oid]

/-- Without the catch, the broadcast loop propagates the failure whenever some
subscriber is closed. -/
theorem sseSendNoCatch_error (subs : List Observer) (e : Event) :
    ∀ o ∈ subs, o.closed = true → sseSendNoCatch subs e = Except.error () := by
  induction subs with
  | nil => intro o ho; simp at ho
  | cons a rest ih =>
    intro o ho hc
    rcases List.mem_cons.mp ho with rfl | hmem
    · unfold sseSendNoCatch; simp [resWrite, hc]
    · unfold sseSendNoCatch
      cases ha : resWrite a e with
      | error err => cases err; rfl
      | ok a2 => simp [ih o hmem hc]

/-- C6 counterexample: a closed observer whose write fails during a broadcast
is not dropped from the observer set — the catch swallows the failure and the
loop keeps the observer; removal happens only through the connection close
event. -/
theorem c6_counterexample :
    resWrite { oid := 7, closed := true, received := [] } (Event.queued 1 1) =
      Except.error () ∧
    ({ oid := 7, closed := true, received := [] } : Observer) ∈
      sseSend [{ oid := 7, closed := true, received := [] }] (Event.queued 1 1) :=
  ⟨rfl, by decide⟩

/-- C6 (amended): for every broadcast, a write failure to a closed observer is
caught inside the fan-out — the loop body swallows it, so the broadcaster
never crashes, while the unguarded loop would propagate the failure — but the
failing observer is kept in the observer set with its identity intact (it is
removed only when its close event fires); open observers receive the event. -/
theorem c6_stale_observer (subs : List Observer) (e : Event) :
    (sseSend subs e).map Observer.oid = subs.map Observer.oid ∧
    (∀ o ∈ subs, o.closed = true →
      resWrite o e = Except.error () ∧ o ∈ sseSend subs e) ∧
    (∀ o ∈ subs, o.closed = false →
      { o with received := o.received ++ [e] } ∈ sseSend subs e) ∧
    (∀ o ∈ subs, o.closed = true → sseSendNoCatch subs e = Except.error ()) := by
  refine ⟨sseSend_oids subs e, ?_, ?_, sseSendNoCatch_error subs e⟩
  · intro o ho hc
    refine ⟨by simp [resWrite, hc], ?_⟩
    have hm := List.mem_map_of_mem (deliver e) ho
    rw [deliver_closed o e hc] at hm
    exact hm
  · intro o ho hc
    have hm := List.mem_map_of_mem (deliver e) ho
    rw [deliver_open o e hc] at hm
    exact hm

/-- Witness for C6: broadcasting one queued event to a closed observer and an
open one keeps both identities, fails (and is swallowed) on the closed one,
delivers to the open one, and the unguarded loop would have crashed. -/
theorem c6_stale_observer_witness :
    ((sseSend [⟨7, true, []⟩, ⟨8, false, []⟩] (Event.queued 1 1)).map Observer.oid =
      ([⟨7, true, []⟩, ⟨8, false, []⟩] : List Observer).map Observer.oid) ∧
    (resWrite ⟨7, true, []⟩ (Event.queued 1 1) = Except.error () ∧
     (⟨7, true, []⟩ : Observer) ∈ sseSend [⟨7, true, []⟩, ⟨8, false, []⟩] (Event.queued 1 1)) ∧
    ((⟨8, false, [Event.queued 1 1]⟩ : Observer) ∈
      sseSend [⟨7, true, []⟩, ⟨8, false, []⟩] (Event.queued 1 1)) ∧
    sseSendNoCatch [⟨7, true, []⟩, ⟨8, false, []⟩] (Event.queued 1 1) = Except.error () :=
  ⟨(c6_stale_observer [⟨7, true, []⟩, ⟨8, false, []⟩] (Event.queued 1 1)).1,
   (c6_stale_observer [⟨7, true, []⟩, ⟨8, false, []⟩] (Event.queued 1 1)).2.1
     ⟨7, true, []⟩ (by decide) (by decide),
   (c6_stale_observer [⟨7, true, []⟩, ⟨8, false, []⟩] (Event.queued 1 1)).2.2.1
     ⟨8, false, []⟩ (by decide) (by decide),
   (c6_stale_observer [⟨7, true, []⟩, ⟨8, false, []⟩] (Event.queued 1 1)).2.2.2
     ⟨7, true, []⟩ (by decide) (by decide)⟩

/-! The control surface: poll-interval clamping and resume. -/

/-- C8: the set action's clamp to a 1ms minimum is defeated by a non-numeric
consumeMs.  A non-empty non-numeric string is truthy, so the assignment
executes, but Number gives NaN and Math.max(1, NaN) is NaN: the stored poll
interval is NaN, not a value of at least 1 millisecond.  For a numeric value
the clamp does work (consumeMs = 0 stores 1ms), and in either case the update
leaves the pending callbacks — and hence any in-flight wait, which keeps the
delay recorded when it was scheduled — untouched. -/
theorem c8_nonNumeric_consumeMs_stores_NaN :
    Param.truthy Param.nonNumeric = true ∧
    jsMax1 (Param.toNumber Param.nonNumeric) = none ∧
    (controlSet Param.nonNumeric initSys).consumePollMs = none ∧
    (controlSet Param.nonNumeric initSys).pending = initSys.pending ∧
    (controlSet (Param.numeric 0) initSys).consumePollMs = some 1 ∧
    (controlSet (Param.numeric 0) initSys).pending = initSys.pending := by decide

/-! The fan-out boundary: initial-state contract. -/

/-- Broadcasting over a set ending in an open observer delivers to it at the
tail. -/
theorem sseSend_append_open (subs : List Observer) (o : Observer) (e : Event)
    (ho : o.closed = false) :
    sseSend (subs ++ [o]) e =
      sseSend subs e ++ [{ o with received := o.received ++ [e] }] := by
  unfold sseSend
  rw [List.map_append]
  simp [deliver_open o e ho]

/-- Emitting a sequence of events after an open observer was registered last
appends exactly that sequence to its stream, keeping it last. -/
theorem emitAll_append_open (es : List Event) :
    ∀ (s : Sys) (pre : List Observer) (o : Observer),
      o.closed = false → s.subscribers = pre ++ [o] →
      ∃ pre2, (emitAll s es).subscribers =
        pre2 ++ [{ o with received := o.received ++ es }] := by
  induction es with
  | nil => intro s pre o ho hs; exact ⟨pre, by simpa [emitAll] using hs⟩
  | cons e tl ih =>
    intro s pre o ho hs
    have hsub : (s.emit e).subscribers =
        sseSend pre e ++ [{ o with received := o.received ++ [e] }] := by
      simp [Sys.emit, hs, sseSend_append_open pre o e ho]
    obtain ⟨pre2, hp⟩ :=
      ih (s.emit e) (sseSend pre e) { o with received := o.received ++ [e] } ho hsub
    refine ⟨pre2, ?_⟩
    have hstep : emitAll s (e :: tl) = emitAll (s.emit e) tl := rfl
    rw [hstep, hp]
    simp

/-- C9: a newly registered observer has the synthetic init event carrying the
registration-time produced, consumed and queue size as the first entry of its
stream, followed by exactly the events emitted after registration, in order;
in particular registering an observer and then emitting one queued event
delivers exactly two events to it: the init snapshot, then the queued event. -/
theorem c9_initial_state_event (s : Sys) (oid : Nat) (es : List Event) :
    (∃ pre, (emitAll (observerConnect oid s) es).subscribers =
      pre ++ [{ oid := oid, closed := false,
                received := Event.init s.produced s.consumed s.queue.size :: es }]) ∧
    (∀ qid qsz : Nat, ∃ pre,
      (emitAll (observerConnect oid s) [Event.queued qid qsz]).subscribers =
        pre ++ [{ oid := oid, closed := false,
                  received := [Event.init s.produced s.consumed s.queue.size,
                               Event.queued qid qsz] }]) := by
  constructor
  · exact emitAll_append_open es (observerConnect oid s) s.subscribers
      { oid := oid, closed := false,
        received := [Event.init s.produced s.consumed s.queue.size] } rfl rfl
  · intro qid qsz
    exact emitAll_append_open [Event.queued qid qsz] (observerConnect oid s) s.subscribers
      { oid := oid, closed := false,
        received := [Event.init s.produced s.consumed s.queue.size] } rfl rfl

/-! Resume idempotence and the one-consumer-loop question. -/

/-- C10 counterexample: a second concurrent consumer chain is reachable.  Two
items are enqueued and one taken in flight by the fired consume callback; a
pause followed by a resume then dequeues the second item synchronously while
the first completion callback is still pending: two completion callbacks —
two live consumer chains — are now pending at once. -/
theorem c10_counterexample :
    (run [Step.enqueueGETReq (Param.numeric 2) 0, Step.fireCb 0 0, Step.pauseReq,
        Step.resumeReq] initSys).pending =
      [Cb.completeCall { id := 1, ts := 0 }, Cb.completeCall { id := 2, ts := 0 }] ∧
    2 ≤ (run [Step.enqueueGETReq (Param.numeric 2) 0, Step.fireCb 0 0, Step.pauseReq,
        Step.resumeReq] initSys).pending.length ∧
    (run [Step.enqueueGETReq (Param.numeric 2) 0, Step.fireCb 0 0, Step.pauseReq,
        Step.resumeReq] initSys).running = true := by decide

/-- C10 (amended): resume invoked while running is already true changes no
state at all — queue, produced, consumed, running, consumePollMs, subscribers
and the pending callbacks are all unchanged and no consumer call is made — and
resume is idempotent: applying it twice equals applying it once.  (Resuming a
paused demo while an item is in flight, however, does start a second
concurrent consumer chain, so at-most-one-active-loop is not an invariant.) -/
theorem c10_resume_idempotent (s : Sys) :
    (s.running = true → controlResume s = s) ∧
    controlResume (controlResume s) = controlResume s := by
  constructor
  · intro h; simp [controlResume, h]
  · by_cases h : s.running
    · simp [controlResume, h]
    · simp [controlResume, h, consume_running]

/-- Witness for C10: the fresh demo is running, so resume leaves it exactly as
it is, twice as well as once. -/
theorem c10_resume_idempotent_witness :
    initSys.running = true ∧ controlResume initSys = initSys ∧
    controlResume (controlResume initSys) = controlResume initSys :=
  ⟨by decide, (c10_resume_idempotent initSys).1 (by decide),
   (c10_resume_idempotent initSys).2⟩

end QueueDemo
